import Mathlib

/-!
Verification of the timesheet / project-hour allocation core of the CMS-RD
repository.  The TypeScript sources are shallowly embedded: JS numbers that
hold hour quantities are modelled as rationals (`ℚ`), time-of-day strings are
kept as `String` and parsed by explicit models of the regular-expression
checks and of the date-fns `parse(s, 'HH:mm', ref)` parser, and JS objects
keyed by date strings are modelled as association lists.
-/

namespace CMSRD

/-- Numeric value of a decimal digit character. -/
def digitVal (c : Char) : ℕ := c.toNat - '0'.toNat

/-- One work interval: a pair of wall-clock `"HH:mm"` strings
(`TimeShift` in `types.ts`; `end` is a Lean keyword, hence `end_`). -/
structure TimeShift where
  start : String
  end_ : String
deriving DecidableEq, Repr

/-- The three shift fields of a day-entry form (`morning`, `afternoon`,
`evening` in the `shifts` state of `DayEntryForm`). -/
structure ShiftSet where
  morning : TimeShift
  afternoon : TimeShift
  evening : TimeShift
deriving DecidableEq, Repr

/-- `{projectId, hours}` as persisted (`ProjectTimeAllocation` in
`types.ts`); `hours` is a JS number, modelled as `ℚ`. -/
structure ProjectTimeAllocation where
  projectId : String
  hours : ℚ
deriving DecidableEq, Repr

/-- Allocation entry as held in the day-entry form state, where the
`hours` field may be missing or non-numeric at runtime (voice input,
partially filled data); `none` stands for a value whose JS
`Number(...)` coercion is `NaN`. -/
structure FormAlloc where
  projectId : String
  hours : Option ℚ
deriving DecidableEq, Repr

/-- `DailyEntry` in `types.ts`: three shifts plus the allocation list. -/
structure DailyEntry where
  morning : TimeShift
  afternoon : TimeShift
  evening : TimeShift
  projectAllocations : List ProjectTimeAllocation
deriving DecidableEq, Repr

/-- The shift triple of a daily entry, as handed to the form calculator. -/
def DailyEntry.shifts (e : DailyEntry) : ShiftSet :=
  ⟨e.morning, e.afternoon, e.evening⟩

/-- `Project` in `types.ts` (the `status` field is kept as a string,
`"active"` / `"inactive"`). -/
structure Project where
  id : String
  name : String
  code : String
  client : String
  accountingId : String
  status : String
deriving DecidableEq, Repr

/-- `AllAllocations`: the date-keyed JS object, as an association list
from `"YYYY-MM-DD"` keys to daily entries. -/
def AllAllocations : Type := List (String × DailyEntry)

/-- JS object property lookup `allocations[key]` (keys are unique in a
JS object; the model reads the first binding). -/
def getEntry (m : AllAllocations) (key : String) : Option DailyEntry :=
  match m.find? (fun kv => kv.1 == key) with
  | some kv => some kv.2
  | none => none

/-! ### Time-of-day parsing

`DayEntryForm.calculateTotalHours` first tests both strings against
`/^\d{2}:\d{2}$/` and then parses with date-fns `parse(s, 'HH:mm', ref)`,
discarding the shift when either parse yields an invalid date.  The
export-service and `App.tsx` calculators skip the regular-expression test
and only require both strings to be truthy (non-empty) before parsing.

date-fns `parse` with format `'HH:mm'` consumes one or two leading digits
for `HH` (value must lie in `0..23`), then a literal `':'`, then one or
two digits for `mm` (value in `0..59`), and fails — returns an invalid
date — if any token fails or input characters remain. -/

/-- The strict gate of the form calculator: `/^\d{2}:\d{2}$/` followed by
a successful date-fns parse; result is minutes since midnight. -/
def parseStrictHHMM (s : String) : Option ℕ :=
  match s.data with
  | [h1, h2, c, m1, m2] =>
    if h1.isDigit && h2.isDigit && (c == ':') && m1.isDigit && m2.isDigit then
      let h := 10 * digitVal h1 + digitVal h2
      let m := 10 * digitVal m1 + digitVal m2
      if h ≤ 23 && m ≤ 59 then some (60 * h + m) else none
    else none
  | _ => none

/-- Greedy one-or-two-digit numeric token of a date-fns padded parser. -/
def takeDigits2 (cs : List Char) : Option (ℕ × List Char) :=
  match cs with
  | [] => none
  | [a] => if a.isDigit then some (digitVal a, []) else none
  | a :: b :: rest =>
    if a.isDigit then
      if b.isDigit then some (10 * digitVal a + digitVal b, rest)
      else some (digitVal a, b :: rest)
    else none

/-- date-fns `parse(s, 'HH:mm', ref)` on its own, as used by the
export-service and `App.tsx` calculators; result is minutes since
midnight, `none` for an invalid date. -/
def parseLenientHHMM (s : String) : Option ℕ :=
  match takeDigits2 s.data with
  | none => none
  | some (h, rest) =>
    match rest with
    | [] => none
    | c :: rest2 =>
      if c == ':' then
        match takeDigits2 rest2 with
        | some (m, []) => if h ≤ 23 && m ≤ 59 then some (60 * h + m) else none
        | _ => none
      else none

/-- Minutes contributed by one shift in `DayEntryForm.calculateTotalHours`
(`src/components/DayEntryForm.tsx`, lines 42-58): both fields must pass the
strict regular expression and parse to valid times, and the end must be
strictly later than the start. -/
def shiftMinutesStrict (sh : TimeShift) : ℕ :=
  match parseStrictHHMM sh.start, parseStrictHHMM sh.end_ with
  | some s, some e => if s < e then e - s else 0
  | _, _ => 0

/-- Minutes contributed by one shift in the export-service / `App.tsx`
calculators: both fields truthy (non-empty), then a plain date-fns parse;
an invalid date makes the `end > start` comparison false. -/
def shiftMinutesLenient (sh : TimeShift) : ℕ :=
  if !sh.start.isEmpty && !sh.end_.isEmpty then
    match parseLenientHHMM sh.start, parseLenientHHMM sh.end_ with
    | some s, some e => if s < e then e - s else 0
    | _, _ => 0
  else 0

/-! ### Formatters (`src/utils/formatters.ts`) -/

namespace Formatters

/-- JS `Math.round`: round half up, `Math.round x = ⌊x + 1/2⌋`. -/
def jsRound (q : ℚ) : ℤ := ⌊q + 1 / 2⌋

/-- JS `String(n).padStart(2, '0')` for a natural number `n`. -/
def padStart2 (s : String) : String :=
  if s.length < 2 then String.mk (List.replicate (2 - s.length) '0') ++ s else s

/-- `decimalHoursToHHMM` (`formatters.ts`, lines 2-16): `"00:00"` for NaN
or negative input (NaN has no rational counterpart; the negative branch is
modelled), otherwise round to integer minutes, split by `60`, zero-pad. -/
def decimalHoursToHHMM (decimalHours : ℚ) : String :=
  if decimalHours < 0 then "00:00"
  else
    let totalMinutes : ℕ := (jsRound (decimalHours * 60)).toNat
    let hours := totalMinutes / 60
    let minutes := totalMinutes % 60
    padStart2 (toString hours) ++ ":" ++ padStart2 (toString minutes)

/-- `hhmmToDecimalHours` (`formatters.ts`, lines 18-27): `0` unless the
string matches `^\d{1,2}:\d{2}$`, else `hours + minutes/60`. -/
def hhmmToDecimalHours (hhmm : String) : ℚ :=
  match hhmm.data with
  | [a, c, b1, b2] =>
    if a.isDigit && (c == ':') && b1.isDigit && b2.isDigit then
      (digitVal a : ℚ) + (10 * digitVal b1 + digitVal b2 : ℕ) / 60
    else 0
  | [a1, a2, c, b1, b2] =>
    if a1.isDigit && a2.isDigit && (c == ':') && b1.isDigit && b2.isDigit then
      (10 * digitVal a1 + digitVal a2 : ℕ) + ((10 * digitVal b1 + digitVal b2 : ℕ) : ℚ) / 60
    else 0
  | _ => 0

end Formatters

/-! ### Day-entry form (`src/components/DayEntryForm.tsx` and the
revision in `src/unnamed/part_003`) -/

namespace DayEntryForm

/-- `calculateTotalHours` of the day-entry form (both revisions share it
verbatim): strict per-shift minutes summed, divided by 60 at the end. -/
def calculateTotalHours (currentShifts : ShiftSet) : ℚ :=
  ((shiftMinutesStrict currentShifts.morning + shiftMinutesStrict currentShifts.afternoon
      + shiftMinutesStrict currentShifts.evening : ℕ) : ℚ) / 60

/-- `Number(alloc.hours) || 0`: a missing or non-numeric `hours` coerces
through `NaN` to `0`. -/
def numberOrZero (h : Option ℚ) : ℚ :=
  match h with
  | some q => q
  | none => 0

/-- `totalAllocatedHours`: `reduce((sum, alloc) => sum + (Number(alloc.hours) || 0), 0)`. -/
def totalAllocatedHours (allocs : List FormAlloc) : ℚ :=
  allocs.foldl (fun sum alloc => sum + numberOrZero alloc.hours) 0

/-- `hoursMatch` of `src/components/DayEntryForm.tsx`, line 64:
`totalWorkedHours > 0 && Math.abs(totalWorkedHours - totalAllocatedHours) < 0.01`. -/
def hoursMatch (totalWorkedHours : ℚ) (allocs : List FormAlloc) : Bool :=
  decide (0 < totalWorkedHours)
    && decide (|totalWorkedHours - totalAllocatedHours allocs| < 1 / 100)

end DayEntryForm

namespace DayEntryFormV2

/-- `hoursMatch` of the `src/unnamed/part_003` revision, line 98:
`Math.abs(totalWorkedHours - totalAllocatedHours) < 0.01` with no
positivity requirement. -/
def hoursMatch (totalWorkedHours : ℚ) (allocs : List FormAlloc) : Bool :=
  decide (|totalWorkedHours - DayEntryForm.totalAllocatedHours allocs| < 1 / 100)

/-- `applyDistribution` (`src/unnamed/part_003`, lines 179-195): no-op on
an empty selection, rejected (alert, then return) when the worked total is
`=== 0`; otherwise the allocation list is replaced by one entry per
selected project id carrying `totalWorkedHours / N` hours. -/
def applyDistribution (totalWorkedHours : ℚ) (selectedProjectsForDist : List String)
    (projectAllocations : List FormAlloc) : List FormAlloc :=
  if selectedProjectsForDist.length = 0 then projectAllocations
  else if totalWorkedHours = 0 then projectAllocations
  else
    let hoursPerProject := totalWorkedHours / selectedProjectsForDist.length
    selectedProjectsForDist.map (fun pid => ⟨pid, some hoursPerProject⟩)

end DayEntryFormV2

/-! ### Export service (`src/services/exportService.ts`) -/

namespace ExportService

/-- `calculateTotalHours` (`exportService.ts`, lines 10-26): lenient
per-shift minutes (no regular-expression gate) summed and divided by 60;
`null` entries yield `0`. -/
def calculateTotalHours (entry : Option DailyEntry) : ℚ :=
  match entry with
  | none => 0
  | some e =>
    ((shiftMinutesLenient e.morning + shiftMinutesLenient e.afternoon
        + shiftMinutesLenient e.evening : ℕ) : ℚ) / 60

/-- `grandTotalWorked` (`exportService.ts`, lines 91-95): worked hours of
every day of the month summed. -/
def grandTotalWorked (fullMonthDates : List String) (allocations : AllAllocations) : ℚ :=
  (fullMonthDates.map (fun day => calculateTotalHours (getEntry allocations day))).sum

/-- `projectTotalHours` of one project row (`exportService.ts`, lines
136-143): per-day `allocation?.hours || 0` summed over the month. -/
def projectTotalHours (fullMonthDates : List String) (allocations : AllAllocations)
    (projectId : String) : ℚ :=
  (fullMonthDates.map (fun day =>
    match getEntry allocations day with
    | none => 0
    | some e =>
      match e.projectAllocations.find? (fun pa => pa.projectId == projectId) with
      | some pa => pa.hours
      | none => 0)).sum

/-- JS `q.toFixed(2)` for a non-negative rational: round half up to two
decimals and print with exactly two fraction digits. -/
def toFixed2 (q : ℚ) : String :=
  let n : ℕ := (⌊q * 100 + 1 / 2⌋).toNat
  toString (n / 100) ++ "." ++ Formatters.padStart2 (toString (n % 100))

/-- The percentage string of one project row (`exportService.ts`, line
147): `grandTotalWorked > 0 ? ((projectTotalHours / grandTotalWorked) * 100).toFixed(2) + '%' : '0%'`. -/
def percentString (projectTotal grandTotal : ℚ) : String :=
  if 0 < grandTotal then toFixed2 (projectTotal / grandTotal * 100) ++ "%" else "0%"

/-- The percentage cell actually pushed on the row (`exportService.ts`,
line 148): the percentage only when the project has hours, else blank. -/
def percentCell (projectTotal grandTotal : ℚ) : Option String :=
  if 0 < projectTotal then some (percentString projectTotal grandTotal) else none

end ExportService

/-! ### `App.tsx`: monthly statistics and project deletion -/

namespace AppMain

/-- `calculateTotalHours` of `App.tsx` (lines 185-201; the second revision
at lines 595-609 is verbatim the same logic): identical to the
export-service calculator. -/
def calculateTotalHours (entry : Option DailyEntry) : ℚ :=
  match entry with
  | none => 0
  | some e =>
    ((shiftMinutesLenient e.morning + shiftMinutesLenient e.afternoon
        + shiftMinutesLenient e.evening : ℕ) : ℚ) / 60

/-- `projectsById = projects.reduce((acc, p) => { acc[p.id] = p; return acc }, {})`:
later list entries overwrite earlier ones. -/
def projectsById (projects : List Project) : String → Option Project :=
  projects.foldl (fun acc p => fun pid => if pid == p.id then some p else acc pid)
    (fun _ => none)

/-- Derived monthly aggregate: grand worked total and the
`hoursByClient` record (modelled as a total function, absent keys read 0). -/
structure MonthlyStats where
  totalHours : ℚ
  hoursByClient : String → ℚ

/-- One allocation folded into `hoursByClient`:
`hoursByClient[project.client] = (hoursByClient[project.client] || 0) + alloc.hours`,
skipped when `projectsById[alloc.projectId]` is undefined. -/
def addAlloc (resolve : String → Option Project) (st : MonthlyStats)
    (alloc : ProjectTimeAllocation) : MonthlyStats :=
  match resolve alloc.projectId with
  | some project =>
    { st with hoursByClient := fun c =>
        if c == project.client then st.hoursByClient c + alloc.hours
        else st.hoursByClient c }
  | none => st

/-- `monthlyStats` (`App.tsx`, lines 203-225): walk the days of the month,
add each present entry's worked hours to the grand total and fold its
allocations into the per-client record. -/
def monthlyStats (daysInMonth : List String) (allocations : AllAllocations)
    (projects : List Project) : MonthlyStats :=
  daysInMonth.foldl (fun st day =>
    match getEntry allocations day with
    | none => st
    | some entry =>
      entry.projectAllocations.foldl (addAlloc (projectsById projects))
        { st with totalHours := st.totalHours + calculateTotalHours (some entry) })
    ⟨0, fun _ => 0⟩

/-- `handleDeleteProject`'s allocation sweep (`App.tsx`, lines 79-90):
every day keeps its shifts and loses exactly the deleted project's
allocations. -/
def handleDeleteProjectAllocations (projectId : String) (allocations : AllAllocations) :
    AllAllocations :=
  allocations.map (fun kv =>
    (kv.1, { kv.2 with projectAllocations :=
        kv.2.projectAllocations.filter (fun pa => pa.projectId != projectId) }))

end AppMain

/-! ### Data service (`src/services/dataService.ts`) -/

namespace DataService

/-- The in-memory sweep of `clearAllocationsForProject`
(`dataService.ts`, lines 270-291): a day is rewritten (filtered) only when
one of its allocations references the deleted project, otherwise kept
as-is; days are never removed from the map. -/
def clearAllocationsForProject (projectId : String) (currentAllocations : AllAllocations) :
    AllAllocations :=
  currentAllocations.map (fun kv =>
    if kv.2.projectAllocations.any (fun pa => pa.projectId == projectId) then
      (kv.1, { kv.2 with projectAllocations :=
          kv.2.projectAllocations.filter (fun pa => pa.projectId != projectId) })
    else kv)

end DataService

/-! ### Claim-side restatements

Definitions below follow the wording of the specification; the theorems
compare them with the source-derived definitions above. -/

/-- Spec wording of one shift's contribution (§4.1): if both fields parse
under the strict gate and the end is strictly later, the minute
difference divided by 60, else zero. -/
def specShiftHours (sh : TimeShift) : ℚ :=
  match parseStrictHHMM sh.start, parseStrictHHMM sh.end_ with
  | some s, some e => if s < e then ((e - s : ℕ) : ℚ) / 60 else 0
  | _, _ => 0

/-- The bare `/^\d{2}:\d{2}$/` test of the form calculator. -/
def matchesStrictHHMM (s : String) : Bool :=
  match s.data with
  | [h1, h2, c, m1, m2] => h1.isDigit && h2.isDigit && (c == ':') && m1.isDigit && m2.isDigit
  | _ => false

/-- Spec wording of the per-client share of one allocation list: each
allocation whose project resolves contributes its hours to its project's
client, unresolved ones contribute nothing. -/
def clientAllocsSum (resolve : String → Option Project) (client : String)
    (allocs : List ProjectTimeAllocation) : ℚ :=
  (allocs.map (fun a =>
    match resolve a.projectId with
    | some p => if p.client = client then a.hours else 0
    | none => 0)).sum

/-- Spec wording of `hoursByClient` (§4.5): over the days of the month,
the per-client shares of each present entry, summed. -/
def clientSum (daysInMonth : List String) (allocations : AllAllocations)
    (projects : List Project) (client : String) : ℚ :=
  (daysInMonth.map (fun day =>
    match getEntry allocations day with
    | some e => clientAllocsSum (AppMain.projectsById projects) client e.projectAllocations
    | none => 0)).sum

/-- Spec wording of the monthly worked grand total: every present day's
worked hours summed, with no project resolution involved. -/
def workedSum (daysInMonth : List String) (allocations : AllAllocations) : ℚ :=
  (daysInMonth.map (fun day => AppMain.calculateTotalHours (getEntry allocations day))).sum

/-! ## Helper lemmas -/

theorem specShiftHours_eq_minutes (sh : TimeShift) :
    specShiftHours sh = ((shiftMinutesStrict sh : ℕ) : ℚ) / 60 := by
  unfold specShiftHours shiftMinutesStrict
  cases parseStrictHHMM sh.start with
  | none => simp
  | some s =>
    cases parseStrictHHMM sh.end_ with
    | none => simp
    | some e =>
      by_cases h : s < e
      · simp [h]
      · simp [h]

theorem totalAllocatedHours_foldl (l : List FormAlloc) (init : ℚ) :
    l.foldl (fun sum alloc => sum + DayEntryForm.numberOrZero alloc.hours) init
      = init + (l.map (fun a => DayEntryForm.numberOrZero a.hours)).sum := by
  induction l generalizing init with
  | nil => simp
  | cons a l ih => simp [ih]; ring

theorem totalAllocatedHours_eq_sum (l : List FormAlloc) :
    DayEntryForm.totalAllocatedHours l
      = (l.map (fun a => DayEntryForm.numberOrZero a.hours)).sum := by
  unfold DayEntryForm.totalAllocatedHours
  rw [totalAllocatedHours_foldl]
  ring

theorem sum_map_const_rat {α : Type} (l : List α) (c : ℚ) :
    (l.map (fun _ => c)).sum = l.length * c := by
  induction l with
  | nil => simp
  | cons a l ih =>
    simp [ih]
    ring

/-! ## Claims -/

/-- C1: the form's shift calculator sums, over the three shifts, the
minute difference divided by 60, a shift contributing only when both
fields pass the strict `HH:mm` gate and the parsed end is strictly later
than the parsed start; `08:00`–`12:00` gives 4 hours, `12:00`–`08:00`
gives 0, and the result is always non-negative. -/
theorem C1_shift_calculator :
    (∀ s : ShiftSet,
        DayEntryForm.calculateTotalHours s =
          specShiftHours s.morning + specShiftHours s.afternoon + specShiftHours s.evening
        ∧ 0 ≤ DayEntryForm.calculateTotalHours s)
    ∧ DayEntryForm.calculateTotalHours ⟨⟨"08:00", "12:00"⟩, ⟨"", ""⟩, ⟨"", ""⟩⟩ = 4
    ∧ DayEntryForm.calculateTotalHours ⟨⟨"12:00", "08:00"⟩, ⟨"", ""⟩, ⟨"", ""⟩⟩ = 0 := by
  refine ⟨fun s => ⟨?_, ?_⟩, ?_, ?_⟩
  · rw [specShiftHours_eq_minutes, specShiftHours_eq_minutes, specShiftHours_eq_minutes]
    unfold DayEntryForm.calculateTotalHours
    push_cast
    ring
  · unfold DayEntryForm.calculateTotalHours
    positivity
  · unfold DayEntryForm.calculateTotalHours
    rw [show shiftMinutesStrict ⟨"08:00", "12:00"⟩ = 240 from rfl,
      show shiftMinutesStrict ⟨"", ""⟩ = 0 from rfl]
    norm_num
  · unfold DayEntryForm.calculateTotalHours
    rw [show shiftMinutesStrict ⟨"12:00", "08:00"⟩ = 0 from rfl,
      show shiftMinutesStrict ⟨"", ""⟩ = 0 from rfl]
    norm_num

/-- C2, counterexample: with zero worked hours and an empty allocation
list, `|worked − allocated| < 0.01` holds yet the `hoursMatch` of
`src/components/DayEntryForm.tsx` is false, because that variant also
requires `worked > 0`. -/
theorem C2_counterexample :
    |(0 : ℚ) - DayEntryForm.totalAllocatedHours []| < 1 / 100
    ∧ DayEntryForm.hoursMatch 0 [] = false := by
  constructor
  · rw [totalAllocatedHours_eq_sum]
    norm_num
  · simp [DayEntryForm.hoursMatch]

/-- C2, amended: `totalAllocatedHours` is the sum of the entries'
`hours` with missing or non-numeric values counted as 0; the
`part_003` revision's `hoursMatch` holds exactly when
`|worked − allocated| < 0.01`, while the `DayEntryForm.tsx` variant
additionally requires `worked > 0`. -/
theorem C2_reconciliation :
    ∀ (w : ℚ) (allocs : List FormAlloc),
      DayEntryForm.totalAllocatedHours allocs
          = (allocs.map (fun a => DayEntryForm.numberOrZero a.hours)).sum
      ∧ (DayEntryFormV2.hoursMatch w allocs = true ↔
          |w - DayEntryForm.totalAllocatedHours allocs| < 1 / 100)
      ∧ (DayEntryForm.hoursMatch w allocs = true ↔
          0 < w ∧ |w - DayEntryForm.totalAllocatedHours allocs| < 1 / 100) := by
  intro w allocs
  refine ⟨totalAllocatedHours_eq_sum allocs, ?_, ?_⟩
  · simp [DayEntryFormV2.hoursMatch]
  · simp [DayEntryForm.hoursMatch]

/-- C3: with positive worked hours and a non-empty selection of N
projects, `applyDistribution` replaces the allocation list by exactly N
entries, one per selected project, each with `worked / N` hours, and the
result reconciles with the worked total within the 0.01 epsilon. -/
theorem C3_even_distribution (w : ℚ) (selected : List String) (current : List FormAlloc)
    (hw : 0 < w) (hsel : selected ≠ []) :
    DayEntryFormV2.applyDistribution w selected current
        = selected.map (fun pid => ⟨pid, some (w / selected.length)⟩)
    ∧ (DayEntryFormV2.applyDistribution w selected current).length = selected.length
    ∧ (DayEntryFormV2.applyDistribution w selected current).map (fun a => a.projectId)
        = selected
    ∧ DayEntryForm.totalAllocatedHours (DayEntryFormV2.applyDistribution w selected current)
        = w
    ∧ DayEntryFormV2.hoursMatch w (DayEntryFormV2.applyDistribution w selected current)
        = true := by
  have hlen : selected.length ≠ 0 := fun h => hsel (List.length_eq_zero.mp h)
  have heq : DayEntryFormV2.applyDistribution w selected current
      = selected.map (fun pid => ⟨pid, some (w / selected.length)⟩) := by
    unfold DayEntryFormV2.applyDistribution
    rw [if_neg hlen, if_neg (ne_of_gt hw)]
  have hsum : DayEntryForm.totalAllocatedHours
      (selected.map (fun pid => (⟨pid, some (w / selected.length)⟩ : FormAlloc))) = w := by
    rw [totalAllocatedHours_eq_sum, List.map_map]
    have : ((fun a => DayEntryForm.numberOrZero a.hours) ∘
        fun pid => (⟨pid, some (w / selected.length)⟩ : FormAlloc))
        = fun _ => w / selected.length := by
      funext pid
      rfl
    rw [this, sum_map_const_rat]
    field_simp
  refine ⟨heq, ?_, ?_, ?_, ?_⟩
  · rw [heq, List.length_map]
  · rw [heq, List.map_map]
    exact List.map_id'' (fun _ => rfl) _
  · rw [heq, hsum]
  · rw [heq]
    simp [DayEntryFormV2.hoursMatch, hsum]

/-- C3, witness: 7.5 worked hours over 3 selected projects produce
exactly three allocations of 2.5 hours each. -/
theorem C3_even_distribution_witness :
    DayEntryFormV2.applyDistribution (15 / 2) ["a", "b", "c"] []
      = [⟨"a", some (5 / 2)⟩, ⟨"b", some (5 / 2)⟩, ⟨"c", some (5 / 2)⟩] := by
  have h := (C3_even_distribution (15 / 2) ["a", "b", "c"] [] (by norm_num)
    (by simp)).1
  rw [h]
  norm_num

/-- C9: with an empty selection or a zero worked total,
`applyDistribution` leaves the allocation list unchanged, and every
allocation it ever produces (rather than passes through) carries a
well-defined rational number of hours. -/
theorem C9_distribution_guards (w : ℚ) (selected : List String) (current : List FormAlloc) :
    ((selected = [] ∨ w = 0) →
      DayEntryFormV2.applyDistribution w selected current = current)
    ∧ (∀ a ∈ DayEntryFormV2.applyDistribution w selected current,
        a.hours = none → a ∈ current) := by
  constructor
  · rintro (h | h)
    · subst h
      rfl
    · subst h
      unfold DayEntryFormV2.applyDistribution
      by_cases hlen : selected.length = 0
      · rw [if_pos hlen]
      · rw [if_neg hlen, if_pos rfl]
  · intro a ha hnone
    unfold DayEntryFormV2.applyDistribution at ha
    by_cases hlen : selected.length = 0
    · rwa [if_pos hlen] at ha
    · rw [if_neg hlen] at ha
      by_cases hw : w = 0
      · rwa [if_pos hw] at ha
      · rw [if_neg hw] at ha
        obtain ⟨pid, -, hpid⟩ := List.mem_map.mp ha
        rw [← hpid] at hnone
        simp at hnone

/-- C9, witness: a zero worked total leaves an existing allocation list
untouched. -/
theorem C9_distribution_guards_witness :
    DayEntryFormV2.applyDistribution 0 ["a"] [⟨"a", some 1⟩] = [⟨"a", some 1⟩] :=
  (C9_distribution_guards 0 ["a"] [⟨"a", some 1⟩]).1 (Or.inr rfl)

/-- C7: deleting a project rewrites every day of the map in place —
the `dataService` sweep and the `App.tsx` handler agree — keeping the
day keys and each day's three shifts, and an allocation survives exactly
when it does not reference the deleted project; a day whose only
allocation referenced it persists with an empty list. -/
theorem C7_delete_project_frame (pid : String) (m : AllAllocations) :
    DataService.clearAllocationsForProject pid m
        = AppMain.handleDeleteProjectAllocations pid m
    ∧ (AppMain.handleDeleteProjectAllocations pid m).map Prod.fst = m.map Prod.fst
    ∧ List.Forall₂ (fun kv kv' : String × DailyEntry =>
        kv'.1 = kv.1 ∧ kv'.2.morning = kv.2.morning ∧ kv'.2.afternoon = kv.2.afternoon
          ∧ kv'.2.evening = kv.2.evening
          ∧ ∀ a, a ∈ kv'.2.projectAllocations ↔
              a ∈ kv.2.projectAllocations ∧ a.projectId ≠ pid)
        m (AppMain.handleDeleteProjectAllocations pid m)
    ∧ AppMain.handleDeleteProjectAllocations pid
          [("2024-01-01", ⟨⟨"08:00", "12:00"⟩, ⟨"", ""⟩, ⟨"", ""⟩, [⟨pid, 4⟩]⟩)]
        = [("2024-01-01", ⟨⟨"08:00", "12:00"⟩, ⟨"", ""⟩, ⟨"", ""⟩, []⟩)] := by
  refine ⟨?_, ?_, ?_, ?_⟩
  · unfold DataService.clearAllocationsForProject AppMain.handleDeleteProjectAllocations
    refine List.map_congr_left fun kv _ => ?_
    by_cases h : kv.2.projectAllocations.any (fun pa => pa.projectId == pid)
    · rw [if_pos h]
    · rw [if_neg h]
      have hall : ∀ pa ∈ kv.2.projectAllocations, (pa.projectId != pid) = true := by
        intro pa hpa
        have := fun hx => h (List.any_eq_true.mpr ⟨pa, hpa, hx⟩)
        simpa [bne_iff_ne] using this
      rw [List.filter_eq_self.mpr hall]
  · unfold AppMain.handleDeleteProjectAllocations
    rw [List.map_map]
    rfl
  · unfold AppMain.handleDeleteProjectAllocations
    rw [List.forall₂_map_right_iff]
    refine List.forall₂_same.mpr fun kv _ => ⟨rfl, rfl, rfl, rfl, fun a => ?_⟩
    simp [List.mem_filter, bne_iff_ne]
  · unfold AppMain.handleDeleteProjectAllocations
    simp

/-- C7, witness: the frame theorem instantiated on a one-day map holding
an allocation for the deleted project and one for another project: the
two sweeps agree and the other project's allocation survives. -/
theorem C7_delete_project_frame_witness :
    AppMain.handleDeleteProjectAllocations "p1"
        [("2024-03-04", ⟨⟨"08:00", "12:00"⟩, ⟨"", ""⟩, ⟨"", ""⟩, [⟨"p1", 3⟩, ⟨"p2", 1⟩]⟩)]
      = DataService.clearAllocationsForProject "p1"
        [("2024-03-04", ⟨⟨"08:00", "12:00"⟩, ⟨"", ""⟩, ⟨"", ""⟩, [⟨"p1", 3⟩, ⟨"p2", 1⟩]⟩)]
    ∧ AppMain.handleDeleteProjectAllocations "p1"
        [("2024-03-04", ⟨⟨"08:00", "12:00"⟩, ⟨"", ""⟩, ⟨"", ""⟩, [⟨"p1", 3⟩, ⟨"p2", 1⟩]⟩)]
      = [("2024-03-04", ⟨⟨"08:00", "12:00"⟩, ⟨"", ""⟩, ⟨"", ""⟩, [⟨"p2", 1⟩]⟩)] := by
  refine ⟨(C7_delete_project_frame "p1" _).1.symm, ?_⟩
  unfold AppMain.handleDeleteProjectAllocations
  simp

/-- C8: the exported percentage is `projectTotal / grandTotal * 100`
(formatted to two decimals) whenever the grand worked total is positive
and `"0%"` whenever it is zero; the grand worked total is never
negative, so no other case arises and no division by zero occurs. -/
theorem C8_export_percentage :
    (∀ pt : ℚ, ExportService.percentString pt 0 = "0%"
      ∧ ExportService.percentCell pt 0 = if 0 < pt then some "0%" else none)
    ∧ (∀ pt g : ℚ, 0 < g →
        ExportService.percentString pt g = ExportService.toFixed2 (pt / g * 100) ++ "%")
    ∧ (∀ (days : List String) (m : AllAllocations),
        0 ≤ ExportService.grandTotalWorked days m) := by
  refine ⟨fun pt => ⟨?_, ?_⟩, fun pt g hg => ?_, fun days m => ?_⟩
  · unfold ExportService.percentString
    rw [if_neg (lt_irrefl 0)]
  · unfold ExportService.percentCell ExportService.percentString
    rw [if_neg (lt_irrefl 0)]
  · unfold ExportService.percentString
    rw [if_pos hg]
  · unfold ExportService.grandTotalWorked
    refine List.sum_nonneg fun x hx => ?_
    obtain ⟨day, -, rfl⟩ := List.mem_map.mp hx
    cases getEntry m day with
    | none => exact le_refl 0
    | some e =>
      unfold ExportService.calculateTotalHours
      positivity

/-- C8, witness: a map whose one day has allocations but no parseable
shifts yields a zero grand total, and the percentage reported for a
project with 5 allocated hours is `"0%"`. -/
theorem C8_export_percentage_witness :
    ExportService.grandTotalWorked ["2024-01-01"]
        [("2024-01-01", ⟨⟨"", ""⟩, ⟨"", ""⟩, ⟨"", ""⟩, [⟨"p1", 5⟩]⟩)] = 0
    ∧ ExportService.percentString 5 0 = "0%"
    ∧ ExportService.percentCell 5 0 = some "0%"
    ∧ (0 : ℚ) < 2 ∧ ExportService.percentString 5 2
        = ExportService.toFixed2 (5 / 2 * 100) ++ "%" := by
  refine ⟨?_, (C8_export_percentage.1 5).1, ?_, by norm_num,
    C8_export_percentage.2.1 5 2 (by norm_num)⟩
  · unfold ExportService.grandTotalWorked
    simp only [List.map_cons, List.map_nil, List.sum_cons, List.sum_nil]
    rw [show ExportService.calculateTotalHours
          (getEntry [("2024-01-01", ⟨⟨"", ""⟩, ⟨"", ""⟩, ⟨"", ""⟩, [⟨"p1", 5⟩]⟩)]
            "2024-01-01")
        = ((0 : ℕ) : ℚ) / 60 from rfl]
    simp
  · rw [(C8_export_percentage.1 5).2]
    norm_num

theorem parseLenient_eq_strict (s : String)
    (h : s = "" ∨ matchesStrictHHMM s = true) :
    parseLenientHHMM s = parseStrictHHMM s := by
  rcases h with h | h
  · subst h
    rfl
  · unfold matchesStrictHHMM at h
    split at h
    next h1 h2 c m1 m2 hdata =>
      simp only [Bool.and_eq_true, beq_iff_eq] at h
      obtain ⟨⟨⟨⟨hd1, hd2⟩, hc⟩, hd3⟩, hd4⟩ := h
      subst hc
      unfold parseLenientHHMM parseStrictHHMM
      rw [hdata]
      simp [takeDigits2, hd1, hd2, hd3, hd4]
    next => simp at h

theorem matchesStrict_not_empty (s : String) (h : matchesStrictHHMM s = true) :
    s.isEmpty = false := by
  unfold matchesStrictHHMM at h
  split at h
  next h1 h2 c m1 m2 hdata =>
    rcases hs : s.isEmpty with _ | _
    · rfl
    · have : s = "" := (String.isEmpty_iff s).mp hs
      rw [this] at hdata
      simp at hdata
  next => simp at h

theorem shiftMinutes_agree (sh : TimeShift)
    (h1 : sh.start = "" ∨ matchesStrictHHMM sh.start = true)
    (h2 : sh.end_ = "" ∨ matchesStrictHHMM sh.end_ = true) :
    shiftMinutesLenient sh = shiftMinutesStrict sh := by
  unfold shiftMinutesLenient shiftMinutesStrict
  rcases h1 with h1 | h1
  · rw [h1, show parseStrictHHMM "" = none from rfl,
      show ("" : String).isEmpty = true from rfl]
    cases parseStrictHHMM sh.end_ <;> simp
  · rcases h2 with h2 | h2
    · rw [h2, show parseStrictHHMM "" = none from rfl,
        show ("" : String).isEmpty = true from rfl]
      cases parseStrictHHMM sh.start <;> simp
    · rw [matchesStrict_not_empty sh.start h1, matchesStrict_not_empty sh.end_ h2,
        parseLenient_eq_strict sh.start (Or.inr h1),
        parseLenient_eq_strict sh.end_ (Or.inr h2)]
      simp

/-- C10, counterexample: on the entry whose morning shift is
`"8:00"`–`"12:00"`, the form calculator (strict `\d{2}:\d{2}` gate)
reports 0 worked hours while the export/aggregation calculator (lenient
date-fns parse) reports 4, so the two calculators are not equal on every
daily entry. -/
theorem C10_counterexample :
    DayEntryForm.calculateTotalHours
        (DailyEntry.shifts ⟨⟨"8:00", "12:00"⟩, ⟨"", ""⟩, ⟨"", ""⟩, []⟩) = 0
    ∧ ExportService.calculateTotalHours
        (some ⟨⟨"8:00", "12:00"⟩, ⟨"", ""⟩, ⟨"", ""⟩, []⟩) = 4
    ∧ DayEntryForm.calculateTotalHours
          (DailyEntry.shifts ⟨⟨"8:00", "12:00"⟩, ⟨"", ""⟩, ⟨"", ""⟩, []⟩)
        ≠ ExportService.calculateTotalHours
          (some ⟨⟨"8:00", "12:00"⟩, ⟨"", ""⟩, ⟨"", ""⟩, []⟩) := by
  have hform : DayEntryForm.calculateTotalHours
      (DailyEntry.shifts ⟨⟨"8:00", "12:00"⟩, ⟨"", ""⟩, ⟨"", ""⟩, []⟩) = 0 := by
    show ((shiftMinutesStrict ⟨"8:00", "12:00"⟩ + shiftMinutesStrict ⟨"", ""⟩
        + shiftMinutesStrict ⟨"", ""⟩ : ℕ) : ℚ) / 60 = 0
    rw [show (shiftMinutesStrict ⟨"8:00", "12:00"⟩ + shiftMinutesStrict ⟨"", ""⟩
        + shiftMinutesStrict ⟨"", ""⟩ : ℕ) = 0 from rfl]
    norm_num
  have hexport : ExportService.calculateTotalHours
      (some ⟨⟨"8:00", "12:00"⟩, ⟨"", ""⟩, ⟨"", ""⟩, []⟩) = 4 := by
    show ((shiftMinutesLenient ⟨"8:00", "12:00"⟩ + shiftMinutesLenient ⟨"", ""⟩
        + shiftMinutesLenient ⟨"", ""⟩ : ℕ) : ℚ) / 60 = 4
    rw [show (shiftMinutesLenient ⟨"8:00", "12:00"⟩ + shiftMinutesLenient ⟨"", ""⟩
        + shiftMinutesLenient ⟨"", ""⟩ : ℕ) = 240 from rfl]
    norm_num
  refine ⟨hform, hexport, ?_⟩
  rw [hform, hexport]
  norm_num

/-- C10, amended: the strict form calculator and the lenient
export/aggregation calculators agree on every daily entry each of whose
shift time strings is either empty or matches the strict two-digit
`HH:mm` pattern (the export and `App.tsx` calculators agree on all
entries unconditionally); on other entries — such as a lenient-parseable
`"8:00"` — the form calculator can report 0 where the export path counts
the shift. -/
theorem C10_calculators_amended (e : DailyEntry)
    (hm1 : e.morning.start = "" ∨ matchesStrictHHMM e.morning.start = true)
    (hm2 : e.morning.end_ = "" ∨ matchesStrictHHMM e.morning.end_ = true)
    (ha1 : e.afternoon.start = "" ∨ matchesStrictHHMM e.afternoon.start = true)
    (ha2 : e.afternoon.end_ = "" ∨ matchesStrictHHMM e.afternoon.end_ = true)
    (he1 : e.evening.start = "" ∨ matchesStrictHHMM e.evening.start = true)
    (he2 : e.evening.end_ = "" ∨ matchesStrictHHMM e.evening.end_ = true) :
    DayEntryForm.calculateTotalHours e.shifts = ExportService.calculateTotalHours (some e)
    ∧ ExportService.calculateTotalHours (some e) = AppMain.calculateTotalHours (some e) := by
  constructor
  · show ((shiftMinutesStrict e.morning + shiftMinutesStrict e.afternoon
        + shiftMinutesStrict e.evening : ℕ) : ℚ) / 60
      = ((shiftMinutesLenient e.morning + shiftMinutesLenient e.afternoon
        + shiftMinutesLenient e.evening : ℕ) : ℚ) / 60
    rw [shiftMinutes_agree e.morning hm1 hm2, shiftMinutes_agree e.afternoon ha1 ha2,
      shiftMinutes_agree e.evening he1 he2]
  · rfl

theorem digitChar_isDigit :
    ∀ d : ℕ, d < 10 → (Nat.digitChar d).isDigit = true ∧ digitVal (Nat.digitChar d) = d := by
  decide

theorem pad2_repr : ∀ n : ℕ, n < 100 →
    Formatters.padStart2 (toString n) = String.mk [Nat.digitChar (n / 10), Nat.digitChar (n % 10)] := by
  decide

theorem hhmm_mk_eval (h m : ℕ) (hh : h < 100) (hm : m < 100) :
    Formatters.hhmmToDecimalHours (String.mk
      [Nat.digitChar (h / 10), Nat.digitChar (h % 10), ':',
       Nat.digitChar (m / 10), Nat.digitChar (m % 10)]) = (h : ℚ) + (m : ℚ) / 60 := by
  have hd1 := digitChar_isDigit (h / 10) (by omega)
  have hd2 := digitChar_isDigit (h % 10) (Nat.mod_lt _ (by norm_num))
  have hd3 := digitChar_isDigit (m / 10) (by omega)
  have hd4 := digitChar_isDigit (m % 10) (Nat.mod_lt _ (by norm_num))
  unfold Formatters.hhmmToDecimalHours
  simp only [String.data]
  simp [hd1.1, hd1.2, hd2.1, hd2.2, hd3.1, hd3.2, hd4.1, hd4.2]
  have hq1 : (10 : ℚ) * ((h / 10 : ℕ) : ℚ) + ((h % 10 : ℕ) : ℚ) = (h : ℚ) := by
    exact_mod_cast (by omega : 10 * (h / 10) + h % 10 = h)
  have hq2 : (10 : ℚ) * ((m / 10 : ℕ) : ℚ) + ((m % 10 : ℕ) : ℚ) = (m : ℚ) := by
    exact_mod_cast (by omega : 10 * (m / 10) + m % 10 = m)
  rw [hq1, hq2]

theorem floor_one_half : (⌊(1 : ℚ) / 2⌋ : ℤ) = 0 := by
  rw [Int.floor_eq_zero_iff]
  constructor <;> norm_num

theorem jsRound_natCast (n : ℕ) : Formatters.jsRound ((n : ℕ) : ℚ) = n := by
  unfold Formatters.jsRound
  rw [Int.floor_nat_add, floor_one_half]
  ring

theorem roundtrip_core (x : ℚ) (hx : 0 ≤ x)
    (hb : (Formatters.jsRound (x * 60)).toNat < 6000) :
    Formatters.hhmmToDecimalHours (Formatters.decimalHoursToHHMM x)
      = ((Formatters.jsRound (x * 60)).toNat : ℚ) / 60 := by
  have hx' : ¬ x < 0 := not_lt.mpr hx
  have hdec : Formatters.decimalHoursToHHMM x
      = Formatters.padStart2 (toString ((Formatters.jsRound (x * 60)).toNat / 60)) ++ ":"
        ++ Formatters.padStart2 (toString ((Formatters.jsRound (x * 60)).toNat % 60)) := by
    unfold Formatters.decimalHoursToHHMM
    rw [if_neg hx']
  rw [hdec, pad2_repr ((Formatters.jsRound (x * 60)).toNat / 60) (by omega),
    pad2_repr ((Formatters.jsRound (x * 60)).toNat % 60) (by omega)]
  rw [show String.mk [Nat.digitChar ((Formatters.jsRound (x * 60)).toNat / 60 / 10),
        Nat.digitChar ((Formatters.jsRound (x * 60)).toNat / 60 % 10)] ++ ":"
      ++ String.mk [Nat.digitChar ((Formatters.jsRound (x * 60)).toNat % 60 / 10),
        Nat.digitChar ((Formatters.jsRound (x * 60)).toNat % 60 % 10)]
    = String.mk [Nat.digitChar ((Formatters.jsRound (x * 60)).toNat / 60 / 10),
        Nat.digitChar ((Formatters.jsRound (x * 60)).toNat / 60 % 10), ':',
        Nat.digitChar ((Formatters.jsRound (x * 60)).toNat % 60 / 10),
        Nat.digitChar ((Formatters.jsRound (x * 60)).toNat % 60 % 10)] from rfl]
  rw [hhmm_mk_eval ((Formatters.jsRound (x * 60)).toNat / 60)
    ((Formatters.jsRound (x * 60)).toNat % 60) (by omega) (by omega)]
  have hsplit : 60 * ((Formatters.jsRound (x * 60)).toNat / 60)
      + (Formatters.jsRound (x * 60)).toNat % 60 = (Formatters.jsRound (x * 60)).toNat :=
    Nat.div_add_mod _ 60
  have hc : ((Formatters.jsRound (x * 60)).toNat : ℚ)
      = 60 * (((Formatters.jsRound (x * 60)).toNat / 60 : ℕ) : ℚ)
        + (((Formatters.jsRound (x * 60)).toNat % 60 : ℕ) : ℚ) := by
    exact_mod_cast hsplit.symm
  rw [hc]
  ring

theorem addAlloc_foldl (r : String → Option Project) (allocs : List ProjectTimeAllocation)
    (st : AppMain.MonthlyStats) :
    (allocs.foldl (AppMain.addAlloc r) st).totalHours = st.totalHours
    ∧ ∀ c, (allocs.foldl (AppMain.addAlloc r) st).hoursByClient c
        = st.hoursByClient c + clientAllocsSum r c allocs := by
  induction allocs generalizing st with
  | nil => simp [clientAllocsSum]
  | cons a l ih =>
    rw [List.foldl_cons]
    refine ⟨?_, fun c => ?_⟩
    · rw [(ih (AppMain.addAlloc r st a)).1]
      unfold AppMain.addAlloc
      cases r a.projectId <;> rfl
    · rw [(ih (AppMain.addAlloc r st a)).2 c]
      unfold AppMain.addAlloc clientAllocsSum
      cases hr : r a.projectId with
      | none => simp [hr]
      | some p =>
        by_cases hc : p.client = c
        · simp only [List.map_cons, List.sum_cons, hr, hc, if_pos rfl]
          have : (c == c) = true := beq_self_eq_true c
          simp [this, hc]
          ring
        · have hcc : (c == p.client) = false := by
            rcases hb : c == p.client with _ | _
            · rfl
            · exact absurd (beq_iff_eq.mp hb).symm hc
          simp [hr, hcc, hc]

theorem monthlyStats_foldl (daysInMonth : List String) (m : AllAllocations)
    (ps : List Project) (st : AppMain.MonthlyStats) :
    (daysInMonth.foldl (fun st day =>
        match getEntry m day with
        | none => st
        | some entry =>
          entry.projectAllocations.foldl (AppMain.addAlloc (AppMain.projectsById ps))
            { st with totalHours := st.totalHours + AppMain.calculateTotalHours (some entry) })
      st).totalHours = st.totalHours + workedSum daysInMonth m
    ∧ ∀ c, (daysInMonth.foldl (fun st day =>
        match getEntry m day with
        | none => st
        | some entry =>
          entry.projectAllocations.foldl (AppMain.addAlloc (AppMain.projectsById ps))
            { st with totalHours := st.totalHours + AppMain.calculateTotalHours (some entry) })
      st).hoursByClient c = st.hoursByClient c + clientSum daysInMonth m ps c := by
  induction daysInMonth generalizing st with
  | nil => simp [workedSum, clientSum]
  | cons d l ih =>
    rw [List.foldl_cons]
    cases hd : getEntry m d with
    | none =>
      refine ⟨?_, fun c => ?_⟩
      · rw [(ih st).1]
        unfold workedSum
        simp only [List.map_cons, List.sum_cons, hd]
        rw [show AppMain.calculateTotalHours none = 0 from rfl]
        ring
      · rw [(ih st).2 c]
        unfold clientSum
        simp only [List.map_cons, List.sum_cons, hd]
        ring
    | some entry =>
      have hin := addAlloc_foldl (AppMain.projectsById ps) entry.projectAllocations
        { st with totalHours := st.totalHours + AppMain.calculateTotalHours (some entry) }
      refine ⟨?_, fun c => ?_⟩
      · rw [(ih _).1, hin.1]
        unfold workedSum
        simp only [List.map_cons, List.sum_cons, hd]
        ring
      · rw [(ih _).2 c, hin.2 c]
        unfold clientSum
        simp only [List.map_cons, List.sum_cons, hd]
        ring

/-- C5: `monthlyStats` accumulates, for each allocation of each present
day of the month whose project resolves, that allocation's hours under
the project's client, allocations with no matching project contributing
nothing, while the worked-hours grand total sums every present day's
shift hours with no project resolution; on the two-day example with
projects X and Y both of client `"Acme"`, `hoursByClient "Acme" = 6`. -/
theorem C5_monthly_aggregation :
    (∀ (daysInMonth : List String) (m : AllAllocations) (ps : List Project),
      (AppMain.monthlyStats daysInMonth m ps).totalHours = workedSum daysInMonth m
      ∧ ∀ c, (AppMain.monthlyStats daysInMonth m ps).hoursByClient c
          = clientSum daysInMonth m ps c)
    ∧ (AppMain.monthlyStats ["2024-05-01", "2024-05-02"]
        [("2024-05-01", ⟨⟨"", ""⟩, ⟨"", ""⟩, ⟨"", ""⟩, [⟨"projectX", 3⟩]⟩),
         ("2024-05-02", ⟨⟨"", ""⟩, ⟨"", ""⟩, ⟨"", ""⟩, [⟨"projectX", 2⟩, ⟨"projectY", 1⟩]⟩)]
        [⟨"projectX", "X", "", "Acme", "", "active"⟩,
         ⟨"projectY", "Y", "", "Acme", "", "active"⟩]).hoursByClient "Acme" = 6 := by
  have hmain : ∀ (daysInMonth : List String) (m : AllAllocations) (ps : List Project),
      (AppMain.monthlyStats daysInMonth m ps).totalHours = workedSum daysInMonth m
      ∧ ∀ c, (AppMain.monthlyStats daysInMonth m ps).hoursByClient c
          = clientSum daysInMonth m ps c := by
    intro daysInMonth m ps
    have h := monthlyStats_foldl daysInMonth m ps ⟨0, fun _ => 0⟩
    exact ⟨by rw [AppMain.monthlyStats, h.1]; ring,
      fun c => by rw [AppMain.monthlyStats, h.2 c]; ring⟩
  refine ⟨hmain, ?_⟩
  rw [(hmain _ _ _).2 "Acme"]
  unfold clientSum clientAllocsSum
  simp only [List.map_cons, List.map_nil, List.sum_cons, List.sum_nil]
  rw [show getEntry [("2024-05-01", ⟨⟨"", ""⟩, ⟨"", ""⟩, ⟨"", ""⟩, [⟨"projectX", 3⟩]⟩),
        ("2024-05-02", ⟨⟨"", ""⟩, ⟨"", ""⟩, ⟨"", ""⟩, [⟨"projectX", 2⟩, ⟨"projectY", 1⟩]⟩)]
        "2024-05-01"
      = some ⟨⟨"", ""⟩, ⟨"", ""⟩, ⟨"", ""⟩, [⟨"projectX", 3⟩]⟩ from rfl,
    show getEntry [("2024-05-01", ⟨⟨"", ""⟩, ⟨"", ""⟩, ⟨"", ""⟩, [⟨"projectX", 3⟩]⟩),
        ("2024-05-02", ⟨⟨"", ""⟩, ⟨"", ""⟩, ⟨"", ""⟩, [⟨"projectX", 2⟩, ⟨"projectY", 1⟩]⟩)]
        "2024-05-02"
      = some ⟨⟨"", ""⟩, ⟨"", ""⟩, ⟨"", ""⟩, [⟨"projectX", 2⟩, ⟨"projectY", 1⟩]⟩ from rfl]
  simp only [List.map_cons, List.map_nil, List.sum_cons, List.sum_nil]
  rw [show AppMain.projectsById
        [⟨"projectX", "X", "", "Acme", "", "active"⟩, ⟨"projectY", "Y", "", "Acme", "", "active"⟩]
        "projectX" = some ⟨"projectX", "X", "", "Acme", "", "active"⟩ from rfl,
    show AppMain.projectsById
        [⟨"projectX", "X", "", "Acme", "", "active"⟩, ⟨"projectY", "Y", "", "Acme", "", "active"⟩]
        "projectY" = some ⟨"projectY", "Y", "", "Acme", "", "active"⟩ from rfl]
  norm_num

/-- C10, witness: on an entry written with two-digit times the three
calculators coincide (at 7 worked hours). -/
theorem C10_calculators_amended_witness :
    DayEntryForm.calculateTotalHours
        (DailyEntry.shifts ⟨⟨"08:00", "12:00"⟩, ⟨"13:00", "16:00"⟩, ⟨"", ""⟩, []⟩)
      = ExportService.calculateTotalHours
        (some ⟨⟨"08:00", "12:00"⟩, ⟨"13:00", "16:00"⟩, ⟨"", ""⟩, []⟩)
    ∧ DayEntryForm.calculateTotalHours
        (DailyEntry.shifts ⟨⟨"08:00", "12:00"⟩, ⟨"13:00", "16:00"⟩, ⟨"", ""⟩, []⟩) = 7 := by
  constructor
  · exact (C10_calculators_amended ⟨⟨"08:00", "12:00"⟩, ⟨"13:00", "16:00"⟩, ⟨"", ""⟩, []⟩
      (Or.inr rfl) (Or.inr rfl) (Or.inr rfl) (Or.inr rfl) (Or.inl rfl) (Or.inl rfl)).1
  · show ((shiftMinutesStrict ⟨"08:00", "12:00"⟩ + shiftMinutesStrict ⟨"13:00", "16:00"⟩
        + shiftMinutesStrict ⟨"", ""⟩ : ℕ) : ℚ) / 60 = 7
    rw [show (shiftMinutesStrict ⟨"08:00", "12:00"⟩ + shiftMinutesStrict ⟨"13:00", "16:00"⟩
        + shiftMinutesStrict ⟨"", ""⟩ : ℕ) = 420 from rfl]
    norm_num

theorem jsRound_100_60 : Formatters.jsRound ((100 : ℚ) * 60) = 6000 := by
  rw [show (100 : ℚ) * 60 = ((6000 : ℕ) : ℚ) by push_cast; norm_num]
  exact jsRound_natCast 6000

/-- C4, counterexample: the round trip fails at `x = 100`: the formatter
prints `"100:00"`, the parser's `^\d{1,2}:\d{2}$` test rejects the
three-digit hour field, and the round trip returns 0, not 100 (and not
within one minute of 100). -/
theorem C4_counterexample :
    Formatters.decimalHoursToHHMM 100 = "100:00"
    ∧ Formatters.hhmmToDecimalHours (Formatters.decimalHoursToHHMM 100) = 0
    ∧ ¬ |Formatters.hhmmToDecimalHours (Formatters.decimalHoursToHHMM 100) - 100|
        ≤ (1 : ℚ) / 120 := by
  have h1 : Formatters.decimalHoursToHHMM 100 = "100:00" := by
    unfold Formatters.decimalHoursToHHMM
    rw [if_neg (by norm_num : ¬ (100 : ℚ) < 0), jsRound_100_60]
    rfl
  refine ⟨h1, ?_, ?_⟩
  · rw [h1]
    rfl
  · rw [h1, show Formatters.hhmmToDecimalHours "100:00" = 0 from rfl]
    norm_num

/-- C4, amended: the round trip
`hhmmToDecimalHours (decimalHoursToHHMM h)` is exact for every
minute-resolution value `h = k/60` with `0 ≤ h < 24`, and reproduces any
non-negative `x` to within half a minute (1/120 hour) as long as the
rounded minute total stays below 6000 — i.e. the printed hours field has
at most two digits; beyond that (`x ≳ 100` hours) the parser rejects the
printed string and the round trip returns 0. -/
theorem C4_roundtrip :
    (∀ k : ℕ, k < 1440 →
      Formatters.hhmmToDecimalHours (Formatters.decimalHoursToHHMM ((k : ℚ) / 60))
        = (k : ℚ) / 60)
    ∧ (∀ x : ℚ, 0 ≤ x → Formatters.jsRound (x * 60) < 6000 →
      |Formatters.hhmmToDecimalHours (Formatters.decimalHoursToHHMM x) - x| ≤ 1 / 120) := by
  constructor
  · intro k hk
    have hx : 0 ≤ (k : ℚ) / 60 := by positivity
    have hmul : ((k : ℚ) / 60) * 60 = ((k : ℕ) : ℚ) := by field_simp
    have hjs : Formatters.jsRound (((k : ℚ) / 60) * 60) = k := by
      rw [hmul, jsRound_natCast]
    have htoNat : (Formatters.jsRound (((k : ℚ) / 60) * 60)).toNat = k := by
      rw [hjs]
      exact Int.toNat_natCast k
    have hb : (Formatters.jsRound (((k : ℚ) / 60) * 60)).toNat < 6000 := by
      rw [htoNat]
      omega
    rw [roundtrip_core _ hx hb, htoNat]
  · intro x hx hlt
    have hnn : 0 ≤ Formatters.jsRound (x * 60) := by
      unfold Formatters.jsRound
      refine Int.le_floor.mpr ?_
      push_cast
      positivity
    have hb : (Formatters.jsRound (x * 60)).toNat < 6000 := by omega
    rw [roundtrip_core x hx hb]
    have hcast : (((Formatters.jsRound (x * 60)).toNat : ℕ) : ℚ)
        = ((Formatters.jsRound (x * 60) : ℤ) : ℚ) := by
      rw [show ((Formatters.jsRound (x * 60) : ℤ) : ℚ)
          = (((Formatters.jsRound (x * 60)).toNat : ℤ) : ℚ) by
        rw [Int.toNat_of_nonneg hnn]]
      push_cast
      ring
    rw [hcast]
    have h1 : ((⌊x * 60 + 1 / 2⌋ : ℤ) : ℚ) ≤ x * 60 + 1 / 2 := Int.floor_le _
    have h2 : x * 60 + 1 / 2 < ((⌊x * 60 + 1 / 2⌋ : ℤ) : ℚ) + 1 := Int.lt_floor_add_one _
    unfold Formatters.jsRound
    rw [abs_le]
    constructor <;> linarith

/-- C4, witness: the exact round trip at `h = 7.5 = 450/60` and the
one-minute bound at `x = 2`. -/
theorem C4_roundtrip_witness :
    Formatters.hhmmToDecimalHours (Formatters.decimalHoursToHHMM (((450 : ℕ) : ℚ) / 60))
      = ((450 : ℕ) : ℚ) / 60
    ∧ |Formatters.hhmmToDecimalHours (Formatters.decimalHoursToHHMM 2) - 2| ≤ (1 : ℚ) / 120 := by
  constructor
  · have h := C4_roundtrip.1 450 (by omega)
    exact h
  · refine C4_roundtrip.2 2 (by norm_num) ?_
    rw [show (2 : ℚ) * 60 = ((120 : ℕ) : ℚ) by push_cast; norm_num, jsRound_natCast]
    omega

/-- C6: `decimalHoursToHHMM` returns `"00:00"` on negative input (the
NaN guard has no rational counterpart), and otherwise rounds `x*60` to
the nearest minute `m` (half up, JS `Math.round`), printing `m / 60` and
`m % 60` zero-padded to at least two digits with no clamping of the
hours — `27.5` formats as `"27:30"`. -/
theorem C6_decimal_to_hhmm :
    (∀ x : ℚ, x < 0 → Formatters.decimalHoursToHHMM x = "00:00")
    ∧ (∀ x : ℚ, 0 ≤ x →
      Formatters.decimalHoursToHHMM x
        = Formatters.padStart2 (toString ((round (x * 60)).toNat / 60)) ++ ":"
          ++ Formatters.padStart2 (toString ((round (x * 60)).toNat % 60)))
    ∧ Formatters.decimalHoursToHHMM (55 / 2) = "27:30"
    ∧ Formatters.decimalHoursToHHMM 100 = "100:00" := by
  refine ⟨fun x hx => ?_, fun x hx => ?_, ?_, ?_⟩
  · unfold Formatters.decimalHoursToHHMM
    rw [if_pos hx]
  · unfold Formatters.decimalHoursToHHMM Formatters.jsRound
    rw [if_neg (not_lt.mpr hx), round_eq]
  · unfold Formatters.decimalHoursToHHMM
    rw [if_neg (by norm_num : ¬ (55 : ℚ) / 2 < 0)]
    rw [show Formatters.jsRound ((55 : ℚ) / 2 * 60) = 1650 from by
      rw [show (55 : ℚ) / 2 * 60 = ((1650 : ℕ) : ℚ) by push_cast; norm_num]
      exact jsRound_natCast 1650]
    rfl
  · unfold Formatters.decimalHoursToHHMM
    rw [if_neg (by norm_num : ¬ (100 : ℚ) < 0), jsRound_100_60]
    rfl

/-- C6, witness: the negative guard at `x = -1` and the rounding formula
at `x = 27.5`. -/
theorem C6_decimal_to_hhmm_witness :
    Formatters.decimalHoursToHHMM (-1) = "00:00"
    ∧ (0 : ℚ) ≤ 55 / 2
    ∧ Formatters.decimalHoursToHHMM (55 / 2)
        = Formatters.padStart2 (toString ((round ((55 : ℚ) / 2 * 60)).toNat / 60)) ++ ":"
          ++ Formatters.padStart2 (toString ((round ((55 : ℚ) / 2 * 60)).toNat % 60)) :=
  ⟨C6_decimal_to_hhmm.1 (-1) (by norm_num), by norm_num,
    C6_decimal_to_hhmm.2.1 (55 / 2) (by norm_num)⟩

end CMSRD
